import Mathlib

/-
Verification of the synor mongodb engine (src/src/index.ts) against its
specification. The engine state, the migration record model and every
operation below are shallow embeddings of the TypeScript source: the mongodb
calls are modelled by their documented effect on the record collection, and
the javascript control flow of run (try, catch, finally) is translated
branch by branch.
-/

namespace SynorMongo

/-- Errors surfaced by the engine. synorError models the SynorError values the
adapter itself constructs and throws; migrationError models an arbitrary
failure raised by the opaque runnable unit of a migration; storeError models a
failed CRUD call against the record collection. -/
inductive EngineError where
  | synorError : String → EngineError
  | migrationError : String → EngineError
  | storeError : String → EngineError
  deriving DecidableEq

/-- One document of the migration record collection. The insert performed by
run (src/src/index.ts lines 319 to 328) writes only version, type, title,
hash, appliedAt, appliedBy, executionTime and dirty, so the id field is
optional here: documents written by run carry none, documents written by
other actors may carry some id. Timestamps and durations are in
milliseconds, modelled as Nat. -/
structure MigrationRecord where
  id : Option Nat
  version : String
  type : String
  title : String
  hash : String
  appliedAt : Nat
  appliedBy : String
  executionTime : Nat
  dirty : Bool
  deriving DecidableEq

/-- A migration descriptor as destructured by run (line 301). The runnable
unit is opaque to the adapter; it is modelled by its outcome when invoked
with the live db handle: none when the descriptor lacks a runnable unit,
some outcome when one is present, where the outcome is ok for a successful
run and error e when the unit raises e. -/
structure MigrationSource where
  version : String
  type : String
  title : String
  hash : String
  run : Option (Except EngineError Unit)

/-- The engine instance state: dbOpen says whether the db handle is set (it
is null until open assigns it, lines 260 to 267), collections is the set of
collection names existing in the target database, and store holds the
documents of the migration record collection in natural (insertion) order. -/
structure EngineState where
  dbOpen : Bool
  collections : List String
  store : List MigrationRecord
  deriving DecidableEq

/-- ensureMigrationRecordTableExists (lines 216 to 221) calls
db.createCollection. With the mongodb 3.x driver used by this package, in non
strict mode createCollection returns the already existing collection without
error, and creates it when missing. -/
def ensureMigrationRecordTableExists (collections : List String) (tbl : String) : List String :=
  if tbl ∈ collections then collections else collections ++ [tbl]

/-- open (lines 264 to 268): connect the client, select the database (which
sets the db handle) and ensure the record collection exists. -/
def openOp (s : EngineState) (tbl : String) : EngineState :=
  { s with dbOpen := true,
           collections := ensureMigrationRecordTableExists s.collections tbl }

/-- drop (lines 280 to 300): throws the SynorError with message Database
connection is null when the db handle is not set. Otherwise it lists the
collections with nameOnly, which yields collection info documents of the
shape name and type, and passes each whole document, not its name, to
dropCollection; the mongodb 3.x driver sends the server a drop command with
that object as value, which the server rejects because a collection name
must be a string. So on a database holding at least one collection every
dropCollection call rejects, the surrounding Promise.all rejects with that
store error, and no collection is removed; only on a database with no
collection at all does drop resolve, vacuously. The db handle is never
cleared. -/
def dropOp (s : EngineState) : Except EngineError EngineState :=
  if s.dbOpen then
    if s.collections = [] then Except.ok s
    else Except.error (EngineError.storeError "collection name has invalid type object")
  else
    Except.error (EngineError.synorError "Database connection is null")

/-- The filter of records (lines 346 to 351): a gte condition on the id
field. A mongodb gte filter does not match documents lacking the field. -/
def matchesStartid (startid : Nat) (r : MigrationRecord) : Bool :=
  match r.id with
  | some i => decide (startid ≤ i)
  | none => false

/-- records (lines 341 to 354): throws the SynorError with message Database
connection is null when the db handle is not set, otherwise returns the
documents matching the gte filter. No sort is applied by the source, so the
documents come back in the natural order of the collection. -/
def recordsOp (s : EngineState) (startid : Nat) : Except EngineError (List MigrationRecord) :=
  if s.dbOpen then
    Except.ok (s.store.filter (matchesStartid startid))
  else
    Except.error (EngineError.synorError "Database connection is null")

/-- deleteDirtyRecords (lines 223 to 227): deleteMany with the filter dirty
equals true keeps exactly the records whose dirty flag is false. -/
def cleanRecords (store : List MigrationRecord) : List MigrationRecord :=
  store.filter (fun r => !r.dirty)

/-- The effect on one document of the set clause of updateRecord (lines 234
to 243): only the hash field changes. -/
def setHash (r : MigrationRecord) (h : String) : MigrationRecord :=
  { r with hash := h }

/-- updateRecord (lines 229 to 244): updateOne with a filter on the id field
updates the first matching document only, and is a no op when no document
matches. -/
def updateRecord (store : List MigrationRecord) (i : Nat) (h : String) : List MigrationRecord :=
  match store with
  | [] => []
  | r :: rs =>
    if r.id = some i then setHash r h :: rs
    else r :: updateRecord rs i h

/-- One step of the correction loop of repair (lines 337 to 339). -/
def applyCorrection (store : List MigrationRecord) (c : Nat × String) : List MigrationRecord :=
  updateRecord store c.1 c.2

/-- The effect of repair (lines 331 to 340) on the collection contents: first
the dirty sweep, then the updates one at a time in caller supplied order. -/
def repairStore (store : List MigrationRecord) (cs : List (Nat × String)) : List MigrationRecord :=
  cs.foldl applyCorrection (cleanRecords store)

/-- repair (lines 331 to 340): throws the SynorError with message Database
connection is null when the db handle is not set, otherwise sweeps the dirty
records and applies the corrections in order. -/
def repairOp (s : EngineState) (cs : List (Nat × String)) : Except EngineError EngineState :=
  if s.dbOpen then Except.ok { s with store := repairStore s.store cs }
  else Except.error (EngineError.synorError "Database connection is null")

/-- The record written by the finally block of run (lines 318 to 328): no id
field, appliedBy hard coded to the empty string, executionTime the elapsed
time between the two performance.now readings, dirty as computed by the try
and catch blocks. -/
def mkRecord (m : MigrationSource) (startTime endTime appliedAt : Nat) (dirty : Bool) :
    MigrationRecord :=
  { id := none, version := m.version, type := m.type, title := m.title,
    hash := m.hash, appliedAt := appliedAt, appliedBy := "",
    executionTime := endTime - startTime, dirty := dirty }

/-- run (lines 301 to 330). The try block invokes the runnable unit only when
both the unit and the db handle are present, else it throws the SynorError
with message Run function is null; the catch block flips dirty, logs a fixed
message and rethrows; the finally block performs the insert only when the db
handle is set (optional chaining). By javascript semantics, when the awaited
insert in the finally block itself rejects, that rejection replaces whatever
result was leaving the try and catch blocks, so insertFail, when some,
becomes the outcome and no document is persisted. The userIdentity argument
is the value the getUserInfo helper, available in the closure, would supply;
the body never consults it. Returns the outcome propagated to the caller
together with the state after the call. -/
def runOp (s : EngineState) (m : MigrationSource) (startTime endTime appliedAt : Nat)
    (insertFail : Option EngineError) (userIdentity : String) :
    Except EngineError Unit × EngineState :=
  let attempt : Except EngineError Unit :=
    match m.run, s.dbOpen with
    | some outcome, true => outcome
    | _, _ => Except.error (EngineError.synorError "Run function is null")
  let dirty : Bool :=
    match attempt with
    | Except.ok _ => false
    | Except.error _ => true
  if s.dbOpen then
    match insertFail with
    | some e => (Except.error e, s)
    | none =>
      (attempt, { s with store := s.store ++ [mkRecord m startTime endTime appliedAt dirty] })
  else
    (attempt, s)

/-! Concrete inputs used by the witnesses and counterexamples. -/

def tbl0 : String := "synor_migration_record"

def mFail : MigrationSource :=
  { version := "001", type := "do", title := "create users", hash := "h1",
    run := some (Except.error (EngineError.migrationError "boom")) }

def mOk : MigrationSource :=
  { version := "002", type := "do", title := "add index", hash := "h2",
    run := some (Except.ok ()) }

def mNoRun : MigrationSource :=
  { version := "003", type := "do", title := "missing body", hash := "h3",
    run := none }

def stateOpen : EngineState :=
  { dbOpen := true, collections := [tbl0], store := [] }

def stateClosed : EngineState :=
  { dbOpen := false, collections := [], store := [] }

/-! ## Claim C1 -/

/-- Claim C1: when the runnable unit of a run call raises, exactly one new
MigrationRecord is inserted, with dirty true and the elapsed duration as
executionTime, and the original failure is the outcome propagated to the
caller, with the record write on the exit path (given the bookkeeping insert
itself succeeds, the case the claim describes). -/
theorem run_failure_inserts_dirty_record (s : EngineState) (m : MigrationSource)
    (e : EngineError) (t1 t2 now : Nat) (u : String)
    (hdb : s.dbOpen = true) (hrun : m.run = some (Except.error e)) :
    runOp s m t1 t2 now none u =
      (Except.error e, { s with store := s.store ++ [mkRecord m t1 t2 now true] }) ∧
    (mkRecord m t1 t2 now true).dirty = true ∧
    (mkRecord m t1 t2 now true).executionTime = t2 - t1 := by
  refine ⟨?_, rfl, rfl⟩
  simp [runOp, hdb, hrun]

/-- Witness for claim C1 at a concrete failing migration. -/
theorem run_failure_inserts_dirty_record_witness :
    runOp stateOpen mFail 3 7 10 none "" =
      (Except.error (EngineError.migrationError "boom"),
       { stateOpen with store := stateOpen.store ++ [mkRecord mFail 3 7 10 true] }) ∧
    (mkRecord mFail 3 7 10 true).dirty = true ∧
    (mkRecord mFail 3 7 10 true).executionTime = 7 - 3 :=
  run_failure_inserts_dirty_record stateOpen mFail (EngineError.migrationError "boom")
    3 7 10 "" rfl rfl

/-! ## Claim C2 -/

/-- Claim C2 fails on the code: when the runnable unit raises and the
bookkeeping insert also fails, the error propagated to the caller is the
insert failure, not the original migration failure, and the state is
unchanged. Here the unit raised the migrationError boom, yet the caller
receives the storeError insert failed, a different error. -/
theorem run_insert_failure_masks_original_counterexample :
    (runOp stateOpen mFail 3 7 10 (some (EngineError.storeError "insert failed")) "").1 =
      Except.error (EngineError.storeError "insert failed") ∧
    EngineError.storeError "insert failed" ≠ EngineError.migrationError "boom" ∧
    (runOp stateOpen mFail 3 7 10 (some (EngineError.storeError "insert failed")) "").2 =
      stateOpen :=
  ⟨rfl, by decide, rfl⟩

/-- Claim C2 amended: when the runnable unit raises and the bookkeeping
insert of the dirty record also fails, the insert failure replaces the
original migration failure as the error propagated to the caller (javascript
finally semantics), the original failure is not re-raised, and no record is
written. -/
theorem run_insert_failure_propagates_insert_error (s : EngineState) (m : MigrationSource)
    (e e2 : EngineError) (t1 t2 now : Nat) (u : String)
    (hdb : s.dbOpen = true) (hrun : m.run = some (Except.error e)) :
    runOp s m t1 t2 now (some e2) u = (Except.error e2, s) := by
  simp [runOp, hdb, hrun]

/-- Witness for the amended claim C2 at a concrete failing migration with a
failing insert. -/
theorem run_insert_failure_propagates_insert_error_witness :
    runOp stateOpen mFail 3 7 10 (some (EngineError.storeError "insert failed")) "" =
      (Except.error (EngineError.storeError "insert failed"), stateOpen) :=
  run_insert_failure_propagates_insert_error stateOpen mFail
    (EngineError.migrationError "boom") (EngineError.storeError "insert failed")
    3 7 10 "" rfl rfl

/-! ## Claim C3 -/

/-- Claim C3 fails on the code: a run call on a descriptor lacking a runnable
unit does fail, but the finally block still inserts a MigrationRecord (with
dirty true), so a record is written for the invocation. -/
theorem run_missing_unit_writes_record_counterexample :
    (runOp stateOpen mNoRun 3 7 10 none "").1 =
      Except.error (EngineError.synorError "Run function is null") ∧
    (runOp stateOpen mNoRun 3 7 10 none "").2.store =
      stateOpen.store ++ [mkRecord mNoRun 3 7 10 true] ∧
    stateOpen.store ++ [mkRecord mNoRun 3 7 10 true] ≠ stateOpen.store :=
  ⟨rfl, rfl, by decide⟩

/-- Claim C3 amended: when the descriptor lacks a runnable unit (and the db
handle is set), run fails immediately with the SynorError carrying the
message Run function is null, but the finally block still writes one
MigrationRecord with dirty true and the elapsed duration as executionTime. -/
theorem run_missing_unit_fails_and_writes_dirty_record (s : EngineState) (m : MigrationSource)
    (t1 t2 now : Nat) (u : String) (hdb : s.dbOpen = true) (hrun : m.run = none) :
    runOp s m t1 t2 now none u =
      (Except.error (EngineError.synorError "Run function is null"),
       { s with store := s.store ++ [mkRecord m t1 t2 now true] }) := by
  simp [runOp, hdb, hrun]

/-- Witness for the amended claim C3 at a concrete descriptor without a
runnable unit. -/
theorem run_missing_unit_fails_and_writes_dirty_record_witness :
    runOp stateOpen mNoRun 3 7 10 none "" =
      (Except.error (EngineError.synorError "Run function is null"),
       { stateOpen with store := stateOpen.store ++ [mkRecord mNoRun 3 7 10 true] }) :=
  run_missing_unit_fails_and_writes_dirty_record stateOpen mNoRun 3 7 10 "" rfl rfl

/-! ## Claim C9 -/

/-- Claim C9 fails on the code: the record written by run carries the empty
string as appliedBy even when the getUserInfo helper would supply the
nonempty identity alice; the helper is never invoked and the field is hard
coded (line 325). -/
theorem run_appliedBy_ignores_helper_counterexample :
    (runOp stateOpen mOk 3 7 10 none "alice").2.store =
      stateOpen.store ++ [mkRecord mOk 3 7 10 false] ∧
    (mkRecord mOk 3 7 10 false).appliedBy = "" ∧
    ("" : String) ≠ "alice" :=
  ⟨rfl, rfl, by decide⟩

/-- Claim C9 amended: the appliedBy field of every record written by run is
the hard coded empty string: the outcome and final state of run are
independent of the identity the getUserInfo helper would supply, and every
record the call adds to the store has an empty appliedBy. -/
theorem run_appliedBy_always_empty (s : EngineState) (m : MigrationSource)
    (t1 t2 now : Nat) (fail : Option EngineError) (u1 u2 : String) :
    runOp s m t1 t2 now fail u1 = runOp s m t1 t2 now fail u2 ∧
    ∀ r ∈ (runOp s m t1 t2 now fail u1).2.store, r ∈ s.store ∨ r.appliedBy = "" := by
  refine ⟨rfl, ?_⟩
  intro r hr
  by_cases hdb : s.dbOpen
  · cases fail with
    | some e =>
      simp [runOp, hdb] at hr
      exact Or.inl hr
    | none =>
      simp [runOp, hdb] at hr
      rcases hr with hr | hr
      · exact Or.inl hr
      · exact Or.inr (by simp [hr, mkRecord])
  · simp [runOp, hdb] at hr
    exact Or.inl hr

/-- Witness for the amended claim C9 at a concrete successful migration and
two distinct helper identities. -/
theorem run_appliedBy_always_empty_witness :
    runOp stateOpen mOk 3 7 10 none "alice" = runOp stateOpen mOk 3 7 10 none "bob" ∧
    ∀ r ∈ (runOp stateOpen mOk 3 7 10 none "alice").2.store,
      r ∈ stateOpen.store ∨ r.appliedBy = "" :=
  run_appliedBy_always_empty stateOpen mOk 3 7 10 none "alice" "bob"

/-! ## Claim C10 -/

/-- Claim C10: calling run before open ever succeeded (db handle still null)
raises the SynorError with message Run function is null without invoking the
runnable unit, for every descriptor, even one carrying a runnable unit and
whatever its outcome would be, and writes no record at all: the bookkeeping
insert on the exit path is silently skipped, whatever the insert outcome
parameter, and the state is returned unchanged. -/
theorem run_before_open_raises_without_record (s : EngineState) (m : MigrationSource)
    (t1 t2 now : Nat) (fail : Option EngineError) (u : String)
    (hdb : s.dbOpen = false) :
    runOp s m t1 t2 now fail u =
      (Except.error (EngineError.synorError "Run function is null"), s) := by
  cases hm : m.run with
  | none => simp [runOp, hdb, hm]
  | some outcome => simp [runOp, hdb, hm]

/-- Witness for claim C10 at a concrete descriptor that does carry a
succeeding runnable unit, against the never opened engine state. -/
theorem run_before_open_raises_without_record_witness :
    runOp stateClosed mOk 3 7 10 none "" =
      (Except.error (EngineError.synorError "Run function is null"), stateClosed) :=
  run_before_open_raises_without_record stateClosed mOk 3 7 10 none "" rfl

/-! ## Claim C7 -/

/-- Claim C7: open is idempotent with respect to the record collection.
Calling open again leaves the whole engine state exactly as one call leaves
it, and when the record collection already exists the call keeps the
collection list unchanged: with the non strict mongodb 3.x driver,
createCollection on an existing collection is a no op, not an error, so open
is safe to call repeatedly. -/
theorem open_idempotent (s : EngineState) (tbl : String) :
    openOp (openOp s tbl) tbl = openOp s tbl ∧
    (tbl ∈ s.collections → (openOp s tbl).collections = s.collections) := by
  by_cases hc : tbl ∈ s.collections
  · exact ⟨by simp [openOp, ensureMigrationRecordTableExists, hc],
           fun _ => by simp [openOp, ensureMigrationRecordTableExists, hc]⟩
  · refine ⟨?_, fun hcc => absurd hcc hc⟩
    simp [openOp, ensureMigrationRecordTableExists, hc]

/-- Witness for claim C7 at a concrete state already holding the record
collection. -/
theorem open_idempotent_witness :
    openOp (openOp stateOpen tbl0) tbl0 = openOp stateOpen tbl0 ∧
    (openOp stateOpen tbl0).collections = stateOpen.collections :=
  ⟨(open_idempotent stateOpen tbl0).1,
   (open_idempotent stateOpen tbl0).2 (by simp [stateOpen])⟩

/-! ## Claim C8 -/

def recId1 : MigrationRecord :=
  { id := some 1, version := "001", type := "do", title := "a", hash := "x",
    appliedAt := 5, appliedBy := "", executionTime := 4, dirty := false }

def recId2 : MigrationRecord :=
  { id := some 2, version := "002", type := "do", title := "b", hash := "y",
    appliedAt := 6, appliedBy := "", executionTime := 2, dirty := false }

def stateWithRec : EngineState :=
  { dbOpen := true, collections := [tbl0], store := [recId1] }

/-- Claim C8 fails on the code, twice over. On an opened engine holding the
record collection and one record, drop does not even complete: every
dropCollection call rejects (the source hands it a collection info document
instead of a name), so drop fails with a store error, which is not the
ConnectionError, and removes nothing. And records 0 issued afterwards,
without an intervening open, does not fail with a ConnectionError either: the
db handle survives the failed drop, so the query succeeds and returns the
untouched record. -/
theorem drop_rejects_counterexample :
    dropOp stateWithRec =
      Except.error (EngineError.storeError "collection name has invalid type object") ∧
    EngineError.storeError "collection name has invalid type object" ≠
      EngineError.synorError "Database connection is null" ∧
    recordsOp stateWithRec 0 = Except.ok [recId1] :=
  ⟨rfl, by decide, rfl⟩

/-- Claim C8 amended: on an opened engine whose database holds at least one
collection (always the case once open has run), drop does not complete: it
fails with a store error, because the source passes collection info
documents rather than names to dropCollection, and it removes nothing; the
db handle survives, so a records call issued after the drop attempt, without
an intervening open, does not fail with a ConnectionError but succeeds and
returns the untouched records. The ConnectionError of records arises only
while the handle is null, before any open. -/
theorem drop_fails_and_records_still_ok (s : EngineState)
    (hdb : s.dbOpen = true) (hne : s.collections ≠ []) :
    dropOp s =
      Except.error (EngineError.storeError "collection name has invalid type object") ∧
    recordsOp s 0 = Except.ok (s.store.filter (matchesStartid 0)) := by
  constructor
  · simp [dropOp, hdb, hne]
  · simp [recordsOp, hdb]

/-- Witness for the amended claim C8 at a concrete opened state holding the
record collection and one record. -/
theorem drop_fails_and_records_still_ok_witness :
    dropOp stateWithRec =
      Except.error (EngineError.storeError "collection name has invalid type object") ∧
    recordsOp stateWithRec 0 = Except.ok (stateWithRec.store.filter (matchesStartid 0)) :=
  drop_fails_and_records_still_ok stateWithRec rfl (by simp [stateWithRec])

/-! ## Claim C5 -/

/-- The numeric key a record sorts under: its id when present. -/
def recordKey (r : MigrationRecord) : Nat := r.id.getD 0

/-- Ascending order by id over a sequence of records. -/
def sortedById (l : List MigrationRecord) : Prop :=
  List.Pairwise (fun a b => recordKey a ≤ recordKey b) l

def stateTwo : EngineState :=
  { dbOpen := true, collections := [tbl0], store := [recId2, recId1] }

/-- Claim C5 fails on the code: records applies no sort, so the result comes
back in the natural order of the collection. On a collection whose natural
order holds the id 2 document before the id 1 document, records 0 returns
them in that order, which is not ascending by id. -/
theorem records_not_sorted_counterexample :
    recordsOp stateTwo 0 = Except.ok [recId2, recId1] ∧
    ¬ sortedById [recId2, recId1] := by
  refine ⟨rfl, ?_⟩
  intro hs
  rw [sortedById, List.pairwise_cons] at hs
  have := hs.1 recId1 (by simp)
  simp [recordKey, recId1, recId2] at this

/-- Claim C5 amended: for every startid, records returns exactly the stored
documents carrying an id greater than or equal to startid (id equal to
startid included, documents lacking an id excluded), with no upper bound and
no pagination, in the natural order of the collection (a subsequence of the
store, so ascending by id exactly when the collection itself is), and
returns the empty sequence, not an error, when no document meets the
bound. -/
theorem records_exact_filter_natural_order (s : EngineState) (startid : Nat)
    (hdb : s.dbOpen = true) :
    ∃ l, recordsOp s startid = Except.ok l ∧
      l.Sublist s.store ∧
      (∀ r, r ∈ l ↔ (r ∈ s.store ∧ ∃ i, r.id = some i ∧ startid ≤ i)) ∧
      ((∀ r ∈ s.store, ∀ i, r.id = some i → i < startid) → l = []) ∧
      (sortedById s.store → sortedById l) := by
  refine ⟨s.store.filter (matchesStartid startid), by simp [recordsOp, hdb],
    List.filter_sublist _, ?_, ?_, ?_⟩
  · intro r
    rw [List.mem_filter]
    constructor
    · rintro ⟨hmem, hmatch⟩
      refine ⟨hmem, ?_⟩
      cases hid : r.id with
      | none => rw [matchesStartid, hid] at hmatch; simp at hmatch
      | some i =>
        rw [matchesStartid, hid] at hmatch
        exact ⟨i, rfl, by simpa using hmatch⟩
    · rintro ⟨hmem, i, hid, hle⟩
      exact ⟨hmem, by rw [matchesStartid, hid]; simpa using hle⟩
  · intro hall
    rw [List.filter_eq_nil_iff]
    intro r hr
    cases hid : r.id with
    | none => rw [matchesStartid, hid]; simp
    | some i =>
      rw [matchesStartid, hid]
      simpa using Nat.not_le.mpr (hall r hr i hid)
  · intro hs
    exact List.Pairwise.sublist (List.filter_sublist _) hs

/-- Witness for the amended claim C5 at a concrete collection whose natural
order is not ascending by id. -/
theorem records_exact_filter_natural_order_witness :
    ∃ l, recordsOp stateTwo 2 = Except.ok l ∧
      l.Sublist stateTwo.store ∧
      (∀ r, r ∈ l ↔ (r ∈ stateTwo.store ∧ ∃ i, r.id = some i ∧ 2 ≤ i)) ∧
      ((∀ r ∈ stateTwo.store, ∀ i, r.id = some i → i < 2) → l = []) ∧
      (sortedById stateTwo.store → sortedById l) :=
  records_exact_filter_natural_order stateTwo 2 rfl

/-! ## Lemmas about updateRecord and the correction fold, shared by the
repair claims C4 and C6. -/

lemma setHash_id (r : MigrationRecord) (h : String) : (setHash r h).id = r.id := rfl

lemma setHash_dirty (r : MigrationRecord) (h : String) : (setHash r h).dirty = r.dirty := rfl

lemma setHash_hash (r : MigrationRecord) (h : String) : (setHash r h).hash = h := rfl

lemma setHash_setHash (r : MigrationRecord) (h g : String) :
    setHash (setHash r h) g = setHash r g := rfl

/-- Membership in an updated store: a record there was already in the store,
or is the hash update of a store record carrying the targeted id. -/
lemma mem_updateRecord {l : List MigrationRecord} {i : Nat} {h : String} {r : MigrationRecord}
    (hr : r ∈ updateRecord l i h) :
    r ∈ l ∨ ∃ r0, r0 ∈ l ∧ r0.id = some i ∧ r = setHash r0 h := by
  induction l with
  | nil => simp [updateRecord] at hr
  | cons a rs ih =>
    by_cases ha : a.id = some i
    · rw [updateRecord, if_pos ha] at hr
      rcases List.mem_cons.mp hr with hr | hr
      · exact Or.inr ⟨a, List.mem_cons_self a rs, ha, hr⟩
      · exact Or.inl (List.mem_cons_of_mem _ hr)
    · rw [updateRecord, if_neg ha] at hr
      rcases List.mem_cons.mp hr with hr | hr
      · exact Or.inl (by simp [hr])
      · rcases ih hr with h1 | ⟨r0, hr0, hid, hre⟩
        · exact Or.inl (List.mem_cons_of_mem _ h1)
        · exact Or.inr ⟨r0, List.mem_cons_of_mem _ hr0, hid, hre⟩

/-- updateRecord keeps the id field of every position. -/
lemma updateRecord_filterMap_id (l : List MigrationRecord) (i : Nat) (h : String) :
    (updateRecord l i h).filterMap (fun r => r.id) = l.filterMap (fun r => r.id) := by
  induction l with
  | nil => rfl
  | cons a rs ih =>
    by_cases ha : a.id = some i
    · rw [updateRecord, if_pos ha]
      simp [List.filterMap_cons, setHash_id]
    · rw [updateRecord, if_neg ha]
      simp [List.filterMap_cons, ih]

/-- updateRecord does not touch the store when no record carries the id. -/
lemma updateRecord_eq_self {l : List MigrationRecord} {i : Nat} (h : String)
    (hno : ∀ r ∈ l, r.id ≠ some i) : updateRecord l i h = l := by
  induction l with
  | nil => rfl
  | cons a rs ih =>
    rw [updateRecord, if_neg (hno a (List.mem_cons_self a rs))]
    rw [ih (fun r hr => hno r (List.mem_cons_of_mem _ hr))]

/-- When the ids present in the store are pairwise distinct, after
updateRecord every record carrying the targeted id carries the new hash. -/
lemma updateRecord_sets_hash {l : List MigrationRecord} {i : Nat} {h : String}
    (hnd : (l.filterMap (fun r => r.id)).Nodup) :
    ∀ r ∈ updateRecord l i h, r.id = some i → r.hash = h := by
  induction l with
  | nil => simp [updateRecord]
  | cons a rs ih =>
    by_cases ha : a.id = some i
    · intro r hr hid
      rw [updateRecord, if_pos ha] at hr
      rcases List.mem_cons.mp hr with hr | hr
      · rw [hr]; exact setHash_hash a h
      · exfalso
        rw [List.filterMap_cons, ha] at hnd
        have hmem : i ∈ rs.filterMap (fun r => r.id) :=
          List.mem_filterMap.mpr ⟨r, hr, hid⟩
        exact (List.nodup_cons.mp hnd).1 hmem
    · intro r hr hid
      rw [updateRecord, if_neg ha] at hr
      rcases List.mem_cons.mp hr with hr | hr
      · exact absurd (hr ▸ hid) ha
      · have hnd2 : (rs.filterMap (fun r => r.id)).Nodup := by
          rw [List.filterMap_cons] at hnd
          cases haid : a.id with
          | none => rw [haid] at hnd; exact hnd
          | some j => rw [haid] at hnd; exact (List.nodup_cons.mp hnd).2
        exact ih hnd2 r hr hid

/-- Updating a different id preserves the property that every record with a
given id carries a given hash. -/
lemma updateRecord_preserves_hash_of_ne {l : List MigrationRecord} {i j : Nat}
    {h : String} (g : String) (hne : j ≠ i)
    (hp : ∀ r ∈ l, r.id = some i → r.hash = h) :
    ∀ r ∈ updateRecord l j g, r.id = some i → r.hash = h := by
  intro r hr hid
  rcases mem_updateRecord hr with h1 | ⟨r0, hr0, hid0, hre⟩
  · exact hp r h1 hid
  · exfalso
    rw [hre, setHash_id, hid0] at hid
    exact hne (Option.some_injective _ hid)

/-- Folding corrections that never target a given id preserves the property
that every record with that id carries a given hash. -/
lemma foldl_preserves_hash {i : Nat} {h : String} :
    ∀ (cs : List (Nat × String)) (l : List MigrationRecord),
      i ∉ cs.map Prod.fst → (∀ r ∈ l, r.id = some i → r.hash = h) →
      ∀ r ∈ cs.foldl applyCorrection l, r.id = some i → r.hash = h := by
  intro cs
  induction cs with
  | nil => intro l _ hp; simpa using hp
  | cons c cs ih =>
    intro l hmem hp
    have hne : c.1 ≠ i := fun hc => hmem (by simp [hc])
    have hmem2 : i ∉ cs.map Prod.fst := fun hc => hmem (by simp [hc])
    rw [List.foldl_cons]
    exact ih _ hmem2 (updateRecord_preserves_hash_of_ne c.2 hne hp)

/-- The correction fold keeps the id field of every position. -/
lemma foldl_filterMap_id :
    ∀ (cs : List (Nat × String)) (l : List MigrationRecord),
      (cs.foldl applyCorrection l).filterMap (fun r => r.id) =
        l.filterMap (fun r => r.id) := by
  intro cs
  induction cs with
  | nil => intro l; rfl
  | cons c cs ih =>
    intro l
    rw [List.foldl_cons, ih, applyCorrection, updateRecord_filterMap_id]

/-- updateRecord preserves an all clean store. -/
lemma updateRecord_clean {l : List MigrationRecord} {i : Nat} {h : String}
    (hp : ∀ r ∈ l, r.dirty = false) :
    ∀ r ∈ updateRecord l i h, r.dirty = false := by
  intro r hr
  rcases mem_updateRecord hr with h1 | ⟨r0, hr0, _, hre⟩
  · exact hp r h1
  · rw [hre, setHash_dirty]; exact hp r0 hr0

/-- The correction fold preserves an all clean store. -/
lemma foldl_clean :
    ∀ (cs : List (Nat × String)) (l : List MigrationRecord),
      (∀ r ∈ l, r.dirty = false) →
      ∀ r ∈ cs.foldl applyCorrection l, r.dirty = false := by
  intro cs
  induction cs with
  | nil => intro l hp; simpa using hp
  | cons c cs ih =>
    intro l hp
    rw [List.foldl_cons]
    exact ih _ (updateRecord_clean hp)

/-- The dirty sweep leaves only clean records. -/
lemma cleanRecords_clean (store : List MigrationRecord) :
    ∀ r ∈ cleanRecords store, r.dirty = false := by
  intro r hr
  rcases List.mem_filter.mp hr with ⟨_, hb⟩
  simpa using hb

/-- Every record surviving repair is clean. -/
lemma repairStore_clean (store : List MigrationRecord) (cs : List (Nat × String)) :
    ∀ r ∈ repairStore store cs, r.dirty = false :=
  foldl_clean cs (cleanRecords store) (cleanRecords_clean store)

/-- Updating the same id twice keeps only the second hash. -/
lemma updateRecord_updateRecord_same (l : List MigrationRecord) (i : Nat) (h g : String) :
    updateRecord (updateRecord l i h) i g = updateRecord l i g := by
  induction l with
  | nil => rfl
  | cons a rs ih =>
    by_cases ha : a.id = some i
    · rw [updateRecord, if_pos ha, updateRecord, if_pos (by rw [setHash_id]; exact ha),
        setHash_setHash, updateRecord, if_pos ha]
    · rw [updateRecord, if_neg ha, updateRecord, if_neg ha, ih, updateRecord, if_neg ha]

/-- Updates targeting different ids commute. -/
lemma updateRecord_comm {i j : Nat} (hij : i ≠ j) (h g : String) :
    ∀ l, updateRecord (updateRecord l i h) j g = updateRecord (updateRecord l j g) i h := by
  intro l
  induction l with
  | nil => rfl
  | cons a rs ih =>
    by_cases hai : a.id = some i
    · have haj : ¬ a.id = some j := by
        rw [hai]
        exact fun hc => hij (Option.some_injective _ hc)
      rw [updateRecord, if_pos hai, updateRecord, if_neg (by rw [setHash_id]; exact haj),
        updateRecord, if_neg haj, updateRecord, if_pos hai]
    · by_cases haj : a.id = some j
      · rw [updateRecord, if_neg hai, updateRecord, if_pos haj,
          updateRecord, if_pos haj, updateRecord, if_neg (by rw [setHash_id]; exact hai)]
      · rw [updateRecord, if_neg hai, updateRecord, if_neg haj,
          updateRecord, if_neg haj, updateRecord, if_neg hai, ih]

/-- A leading update on an id that some later correction targets again is
absorbed by the fold. -/
lemma foldl_updateRecord_absorb {i : Nat} :
    ∀ (cs : List (Nat × String)) (l : List MigrationRecord) (h : String),
      i ∈ cs.map Prod.fst →
      cs.foldl applyCorrection (updateRecord l i h) = cs.foldl applyCorrection l := by
  intro cs
  induction cs with
  | nil => intro l h hmem; simp at hmem
  | cons c cs ih =>
    intro l h hmem
    by_cases hc : c.1 = i
    · rw [List.foldl_cons, List.foldl_cons, applyCorrection, applyCorrection, hc,
        updateRecord_updateRecord_same]
    · have hmem2 : i ∈ cs.map Prod.fst := by
        rcases List.mem_map.mp hmem with ⟨d, hd, hdi⟩
        rcases List.mem_cons.mp hd with hd | hd
        · exact absurd (hd ▸ hdi) hc
        · exact List.mem_map.mpr ⟨d, hd, hdi⟩
      rw [List.foldl_cons, List.foldl_cons, applyCorrection, applyCorrection,
        updateRecord_comm (fun he => hc he.symm) h c.2 l]
      exact ih _ h hmem2

/-- A leading update on an id no correction targets commutes out of the
fold. -/
lemma foldl_updateRecord_comm {i : Nat} {h : String} :
    ∀ (cs : List (Nat × String)) (l : List MigrationRecord),
      i ∉ cs.map Prod.fst →
      cs.foldl applyCorrection (updateRecord l i h) =
        updateRecord (cs.foldl applyCorrection l) i h := by
  intro cs
  induction cs with
  | nil => intro l _; rfl
  | cons c cs ih =>
    intro l hmem
    have hne : c.1 ≠ i := fun hc => hmem (by simp [hc])
    have hmem2 : i ∉ cs.map Prod.fst := fun hc => hmem (by simp [hc])
    rw [List.foldl_cons, List.foldl_cons, applyCorrection, applyCorrection,
      updateRecord_comm (fun he => hne he.symm) h c.2 l]
    exact ih _ hmem2

/-- Applying the correction fold twice is the same as applying it once. -/
lemma foldl_applyCorrection_idem :
    ∀ (cs : List (Nat × String)) (st : List MigrationRecord),
      cs.foldl applyCorrection (cs.foldl applyCorrection st) = cs.foldl applyCorrection st := by
  intro cs
  induction cs with
  | nil => intro st; rfl
  | cons c cs ih =>
    intro st
    rw [List.foldl_cons, List.foldl_cons]
    by_cases hc : c.1 ∈ cs.map Prod.fst
    · rw [show applyCorrection (cs.foldl applyCorrection (applyCorrection st c)) c =
          updateRecord (cs.foldl applyCorrection (applyCorrection st c)) c.1 c.2 from rfl,
        foldl_updateRecord_absorb cs _ c.2 hc]
      exact ih _
    · have hT : cs.foldl applyCorrection (cs.foldl applyCorrection (applyCorrection st c)) =
          cs.foldl applyCorrection (applyCorrection st c) := ih _
      rw [show applyCorrection (cs.foldl applyCorrection (applyCorrection st c)) c =
          updateRecord (cs.foldl applyCorrection (applyCorrection st c)) c.1 c.2 from rfl,
        foldl_updateRecord_comm cs _ hc, hT,
        show applyCorrection st c = updateRecord st c.1 c.2 from rfl,
        foldl_updateRecord_comm cs _ hc, updateRecord_updateRecord_same]

/-- Repairing an already repaired store changes nothing. -/
lemma repairStore_repairStore (store : List MigrationRecord) (cs : List (Nat × String)) :
    repairStore (repairStore store cs) cs = repairStore store cs := by
  have hself : cleanRecords (repairStore store cs) = repairStore store cs := by
    rw [cleanRecords, List.filter_eq_self]
    intro r hr
    simp [repairStore_clean store cs r hr]
  rw [repairStore, hself]
  exact foldl_applyCorrection_idem cs (cleanRecords store)

/-! ## Claim C4 -/

/-- Claim C4: repair succeeds on an open engine and afterwards no record with
dirty true remains; when ids are unique (as a store assigned primary key and
a caller supplied mapping of corrections both are), every supplied id and
hash pair whose id still exists carries the supplied hash; the dirty sweep
comes first and a correction targeting a swept dirty id or a non existent id
is a no op, not an error; and repair of the empty correction list performs
only the dirty sweep. -/
theorem repair_sweeps_dirty_and_applies_corrections (s : EngineState)
    (cs : List (Nat × String)) (hdb : s.dbOpen = true)
    (hcs : (cs.map Prod.fst).Nodup)
    (hids : (s.store.filterMap (fun r => r.id)).Nodup) :
    ∃ s2, repairOp s cs = Except.ok s2 ∧
      s2.store = repairStore s.store cs ∧
      (∀ r ∈ s2.store, r.dirty = false) ∧
      (∀ c ∈ cs, ∀ r ∈ s2.store, r.id = some c.1 → r.hash = c.2) ∧
      (∀ i g, (∀ r ∈ s.store, r.id = some i → r.dirty = true) →
        repairStore s.store ((i, g) :: cs) = repairStore s.store cs) ∧
      repairStore s.store [] = cleanRecords s.store := by
  refine ⟨{ s with store := repairStore s.store cs }, by simp [repairOp, hdb], rfl,
    repairStore_clean s.store cs, ?_, ?_, rfl⟩
  · intro c hc
    rcases List.append_of_mem hc with ⟨cs1, cs2, rfl⟩
    have hsplit : repairStore s.store (cs1 ++ c :: cs2) =
        cs2.foldl applyCorrection
          (applyCorrection (cs1.foldl applyCorrection (cleanRecords s.store)) c) := by
      rw [repairStore, List.foldl_append, List.foldl_cons]
    rw [hsplit]
    have hndmap : ((cs1 ++ c :: cs2).map Prod.fst).Nodup := hcs
    rw [List.map_append, List.map_cons] at hndmap
    have hnotin : c.1 ∉ cs2.map Prod.fst := by
      have := (List.nodup_append.mp hndmap).2.1
      exact (List.nodup_cons.mp this).1
    apply foldl_preserves_hash cs2 _ hnotin
    apply updateRecord_sets_hash
    rw [foldl_filterMap_id]
    have hsub : (cleanRecords s.store).Sublist s.store := List.filter_sublist _
    exact List.Nodup.sublist (hsub.filterMap (fun r => r.id)) hids
  · intro i g hall
    have hno : ∀ r ∈ cleanRecords s.store, r.id ≠ some i := by
      intro r hr hcontra
      rcases List.mem_filter.mp hr with ⟨hmem, hb⟩
      have := hall r hmem hcontra
      rw [this] at hb
      simp at hb
    rw [repairStore, List.foldl_cons, repairStore,
      show applyCorrection (cleanRecords s.store) (i, g) =
        updateRecord (cleanRecords s.store) i g from rfl,
      updateRecord_eq_self g hno]

/-- Witness for claim C4: a concrete store holding two clean records with
distinct ids, with one correction targeting the record with id 2. -/
theorem repair_sweeps_dirty_and_applies_corrections_witness :
    ∃ s2, repairOp stateTwo [(2, "fixed")] = Except.ok s2 ∧
      s2.store = repairStore stateTwo.store [(2, "fixed")] ∧
      (∀ r ∈ s2.store, r.dirty = false) ∧
      (∀ c ∈ [((2 : Nat), "fixed")], ∀ r ∈ s2.store, r.id = some c.1 → r.hash = c.2) ∧
      (∀ i g, (∀ r ∈ stateTwo.store, r.id = some i → r.dirty = true) →
        repairStore stateTwo.store ((i, g) :: [(2, "fixed")]) =
          repairStore stateTwo.store [(2, "fixed")]) ∧
      repairStore stateTwo.store [] = cleanRecords stateTwo.store :=
  repair_sweeps_dirty_and_applies_corrections stateTwo [(2, "fixed")] rfl
    (by simp) (by simp [stateTwo, recId1, recId2])

/-! ## Claim C6 -/

/-- Claim C6: repair is idempotent. For every starting engine state and
every corrections list, running repair and feeding its outcome into a second
identical repair yields exactly the outcome of the single run, both when the
engine is open (the second sweep and the second round of updates change
nothing) and when it is not (both runs fail with the same error). -/
theorem repair_idempotent (s : EngineState) (cs : List (Nat × String)) :
    (repairOp s cs).bind (fun s2 => repairOp s2 cs) = repairOp s cs := by
  by_cases hdb : s.dbOpen
  · have h1 : repairOp s cs = Except.ok { s with store := repairStore s.store cs } := by
      simp [repairOp, hdb]
    rw [h1, Except.bind]
    have h2 : repairOp { s with store := repairStore s.store cs } cs =
        Except.ok { s with store := repairStore (repairStore s.store cs) cs } := by
      simp [repairOp, hdb]
    rw [h2, repairStore_repairStore]
  · have hdb2 : s.dbOpen = false := by simpa using hdb
    simp [repairOp, hdb2, Except.bind]

end SynorMongo
